import Mathlib

/-!
# Verification of the spyce competitive-intelligence dashboard

Shallow embedding of the agent layer (`DiscoveryAgent`, `CrawlingAgent`,
`AgentOrchestrator`), the dashboard job flow, the add-domain form and the
research PATCH route of the spyce repository, together with theorems
settling the specification claims about them.

External HTTP calls (Tavily search, Appwrite document writes, page
crawls) are modelled as oracle parameters: a function supplied to the
embedded code that may either return a value or raise (an `Except String`
result), exactly as the JavaScript `await`ed promise may resolve or
reject.  JavaScript strings are Lean `String`s; where character-level
reasoning is needed (the domain validator) the operations are written out
over `List Char`.  Fractional scores are embedded as rationals.
-/

namespace Spyce

/-! ## Agent data model (src/lib/agents/index.ts) -/

/-- The `status` field of `AgentConfig`: `'idle' | 'working' | 'error' | 'disabled'`. -/
inductive AgentStatus
  | idle
  | working
  | error
  | disabled
deriving DecidableEq, Repr

/-- Model of `AgentConfig` from src/lib/agents/index.ts. -/
structure AgentConfig where
  id : String
  name : String
  role : String
  capabilities : List String
  status : AgentStatus
deriving DecidableEq, Repr

/-- Model of `AgentResult` from src/lib/agents/index.ts.  The untyped `data` payload is
kept abstract in a type parameter. -/
structure AgentResult (α : Type) where
  success : Bool
  data : Option α := none
  error : Option String := none
deriving DecidableEq, Repr


/-! ## JavaScript string model

The JavaScript string operations the embedded code uses, written out over
`List Char` so that every definition is executable by kernel reduction.
ASCII is modelled exactly; it is the alphabet all the hard-coded patterns
use. -/

/-- Model of `String.prototype.startsWith` on character lists. -/
def startsWithChars : List Char → List Char → Bool
  | _, [] => true
  | [], _ :: _ => false
  | c :: cs, p :: ps => c == p && startsWithChars cs ps

/-- Model of `String.prototype.includes` on character lists. -/
def containsChars : List Char → List Char → Bool
  | s, pat =>
    match s with
    | [] => pat.isEmpty
    | _ :: rest => startsWithChars s pat || containsChars rest pat

/-- Model of `s.includes(pat)`. -/
def jsIncludes (s pat : String) : Bool := containsChars s.data pat.data

/-- Model of `s.replace(' ', '')`: JavaScript `replace` with a string pattern removes
only the first occurrence. -/
def removeFirstSpaceChars : List Char → List Char
  | [] => []
  | c :: cs => if c == ' ' then cs else c :: removeFirstSpaceChars cs

/-- Model of `industry.replace(' ', '')`. -/
def removeFirstSpace (s : String) : String := ⟨removeFirstSpaceChars s.data⟩

/-- Model of `String.prototype.split('.')` on character lists. -/
def splitOnDot : List Char → List (List Char)
  | [] => [[]]
  | c :: cs =>
    if c == '.' then [] :: splitOnDot cs
    else
      match splitOnDot cs with
      | [] => [[c]]
      | l :: ls => (c :: l) :: ls

/-- Model of `String.prototype.toLowerCase` (ASCII range). -/
def toLowerChars (cs : List Char) : List Char := cs.map Char.toLower

/-- Model of `s.toLowerCase()`. -/
def jsToLower (s : String) : String := ⟨toLowerChars s.data⟩

/-- Model of `s.replace(/^https?:\/\//, '')`: strip one leading `http://` or
`https://`. -/
def stripProtocol (cs : List Char) : List Char :=
  if startsWithChars cs "http://".data then cs.drop 7
  else if startsWithChars cs "https://".data then cs.drop 8
  else cs

/-- Model of `s.replace(/\/$/, '')`: strip one trailing slash. -/
def stripTrailingSlash (cs : List Char) : List Char :=
  match cs.getLast? with
  | some '/' => cs.dropLast
  | _ => cs

/-- Model of `String.prototype.trim` on character lists. -/
def jsTrimChars (cs : List Char) : List Char :=
  ((cs.dropWhile Char.isWhitespace).reverse.dropWhile Char.isWhitespace).reverse

/-- Model of `s.trim()`. -/
def jsTrim (s : String) : String := ⟨jsTrimChars s.data⟩

/-! ## DiscoveryAgent.execute and CrawlingAgent.execute

Both `execute` methods have the same shape: set `config.status = 'working'`,
dispatch on `task.type` (an unknown type `throw`s), catch any exception by
setting `config.status = 'error'` and returning `{success:false, error}`,
and in a `finally` block set `config.status = 'idle'`.

The per-type handlers (`discoverCompetitors`, `batchCrawl`, ...) perform
network calls, so the dispatch is modelled by an oracle
`handlers : τ → Except String (AgentResult α)`: for each known task type it
yields either the handler's resolved result or the message of the exception
it raised. -/

/-- Task types of `DiscoveryTask`; `unknown s` stands for any other string
in the `type` field. -/
inductive DiscoveryTaskType
  | discover_competitors
  | analyze_industry
  | find_sources
  | unknown (s : String)
deriving DecidableEq, Repr

/-- Task types of `CrawlingTask`. -/
inductive CrawlingTaskType
  | crawl_domain
  | batch_crawl
  | monitor_changes
  | new_competitors
  | unknown (s : String)
deriving DecidableEq, Repr

/-- The `switch (task.type)` of `DiscoveryAgent.execute`: the `default`
branch throws `Unknown task type: ...`; each named branch awaits its
handler, which may itself reject. -/
def discoveryDispatch {α : Type} (handlers : DiscoveryTaskType → Except String (AgentResult α))
    (t : DiscoveryTaskType) : Except String (AgentResult α) :=
  match t with
  | .unknown s => .error ("Unknown task type: " ++ s)
  | t => handlers t

/-- The `switch (task.type)` of `CrawlingAgent.execute`. -/
def crawlingDispatch {α : Type} (handlers : CrawlingTaskType → Except String (AgentResult α))
    (t : CrawlingTaskType) : Except String (AgentResult α) :=
  match t with
  | .unknown s => .error ("Unknown crawling task type: " ++ s)
  | t => handlers t

/-- The try/catch/finally body shared by `DiscoveryAgent.execute` and
`CrawlingAgent.execute`, as a state transformer on the agent's
`AgentConfig`.  The `Except` in the result type is the returned promise:
`.ok` is a resolution, `.error` would be a rejection. -/
def executeWrapper {α : Type} (cfg : AgentConfig)
    (body : Except String (AgentResult α)) : Except String (AgentConfig × AgentResult α) :=
  let working := { cfg with status := AgentStatus.working }
  match body with
  | .ok r =>
      -- finally: this.config.status = 'idle'
      .ok ({ working with status := AgentStatus.idle }, r)
  | .error msg =>
      -- catch: this.config.status = 'error'; return {success:false, error}
      let caught := { working with status := AgentStatus.error }
      -- finally: this.config.status = 'idle'
      .ok ({ caught with status := AgentStatus.idle },
           { success := false, data := none, error := some msg })

/-- Model of `DiscoveryAgent.execute` (src/unnamed/part_012, lines 283–306). -/
def DiscoveryAgent.execute {α : Type} (handlers : DiscoveryTaskType → Except String (AgentResult α))
    (cfg : AgentConfig) (taskType : DiscoveryTaskType) :
    Except String (AgentConfig × AgentResult α) :=
  executeWrapper cfg (discoveryDispatch handlers taskType)

/-- Model of `CrawlingAgent.execute` (src/unnamed/part_012, lines 944–969). -/
def CrawlingAgent.execute {α : Type} (handlers : CrawlingTaskType → Except String (AgentResult α))
    (cfg : AgentConfig) (taskType : CrawlingTaskType) :
    Except String (AgentConfig × AgentResult α) :=
  executeWrapper cfg (crawlingDispatch handlers taskType)

/-- Model of `BaseAgent.getStatus` returns a copy of the config. -/
def BaseAgent.getStatus (cfg : AgentConfig) : AgentConfig := cfg

/-! ## AgentOrchestrator (src/lib/agents/index.ts, lines 71–141) -/

/-- The orchestrator's `Map<string, BaseAgent>`, with each agent reduced to
its `execute` method (a function from tasks to resolved results). -/
structure AgentOrchestrator (τ α : Type) where
  agents : List (String × (τ → AgentResult α))

/-- Model of `Map.get`: first binding with the given key, if any. -/
def AgentOrchestrator.getAgent {τ α : Type} (o : AgentOrchestrator τ α) (agentId : String) :
    Option (τ → AgentResult α) :=
  (o.agents.find? (fun p => p.1 == agentId)).map Prod.snd

/-- Model of `AgentOrchestrator.executeTask` (src/lib/agents/index.ts, lines 96–103):
throws `Agent ${agentId} not found` when the id is not registered, otherwise
returns `await agent.execute(task)`. -/
def AgentOrchestrator.executeTask {τ α : Type} (o : AgentOrchestrator τ α)
    (agentId : String) (task : τ) : Except String (AgentResult α) :=
  match o.getAgent agentId with
  | none => .error ("Agent " ++ agentId ++ " not found")
  | some ex => .ok (ex task)

/-! ## CrawlingAgent.batchCrawl (src/unnamed/part_012, lines 1003–1072)

`performCrawl` is an HTTP operation; it is the oracle
`crawl : String → Except String CrawlingResult` (`.error` is a rejected
promise, whose reason message `Promise.allSettled` reports). -/

/-- The `crawlMetrics` record of a `CrawlingResult`. -/
structure CrawlMetrics where
  responseTime : Nat
  statusCode : Nat
  contentSize : Nat
  timestamp : String
deriving DecidableEq, Repr

/-- Model of `CrawlingResult` (crawled page payload abstracted to an optional string). -/
structure CrawlingResult where
  success : Bool
  domain : String
  data : Option String := none
  error : Option String := none
  crawlMetrics : CrawlMetrics
deriving DecidableEq, Repr

/-- The `Promise.allSettled` handling of one crawl inside a batch: a
fulfilled promise contributes its value, a rejected one contributes the
synthetic failed record built in the `else` branch (`timestamp` is the
wall-clock string, passed in as `now`). -/
def settleCrawl (crawl : String → Except String CrawlingResult) (now : String)
    (domain : String) : CrawlingResult :=
  match crawl domain with
  | .ok r => r
  | .error msg =>
      { success := false
        domain := domain
        error := some msg
        crawlMetrics := { responseTime := 0, statusCode := 0, contentSize := 0, timestamp := now } }

/-- The `for (let i = 0; i < task.domains.length; i += concurrencyLimit)`
loop with `concurrencyLimit = 3`: returns the accumulated `results` array
and the number of 2-second `delay` calls executed between batches. -/
def batchLoop (crawl : String → Except String CrawlingResult) (now : String) :
    List String → List CrawlingResult × Nat
  | [] => ([], 0)
  | d :: ds =>
      let batch := (d :: ds).take 3
      let rest := (d :: ds).drop 3
      let sub := batchLoop crawl now rest
      (batch.map (settleCrawl crawl now) ++ sub.1, (if rest.isEmpty then 0 else 1) + sub.2)
  termination_by l => l.length
  decreasing_by simp [List.length_drop]; omega

/-- The `summary` record of a `BatchCrawlingResult`. -/
structure BatchSummary where
  totalCrawled : Nat
  successRate : ℚ
deriving DecidableEq, Repr

/-- Model of `BatchCrawlingResult`. -/
structure BatchCrawlingResult where
  successful : Nat
  failed : Nat
  results : List CrawlingResult
  summary : BatchSummary
deriving DecidableEq, Repr

/-- Model of `CrawlingAgent.batchCrawl`: empty/missing `domains` fails early;
otherwise the domains are crawled in batches of at most 3 and the
success/failure split is reported. -/
def CrawlingAgent.batchCrawl (crawl : String → Except String CrawlingResult) (now : String)
    (domains : List String) : AgentResult BatchCrawlingResult :=
  if domains.isEmpty then
    { success := false, error := some "No domains specified for batch crawling" }
  else
    let results := (batchLoop crawl now domains).1
    let successful := results.filter (fun r => r.success)
    let failed := results.filter (fun r => !r.success)
    { success := decide (0 < successful.length)
      data := some
        { successful := successful.length
          failed := failed.length
          results := results
          summary :=
            { totalCrawled := results.length
              successRate := ((successful.length : ℚ) / (results.length : ℚ)) * 100 } } }

/-- Chunks of at most `n` elements, used to state the batching structure of
`batchLoop`. -/
def chunksOf (n : Nat) : List α → List (List α)
  | [] => []
  | x :: xs => (x :: xs.take (n - 1)) :: chunksOf n (xs.drop (n - 1))
  termination_by l => l.length
  decreasing_by simp [List.length_drop]; omega

/-! ## DiscoveryAgent search fallback (src/unnamed/part_012, lines 515–625)

JavaScript string helpers used by the fallback, written over `List Char`. -/

/-- A Tavily-shaped search result; `score` is a rational. -/
structure SearchResult where
  url : String
  title : String
  content : String
  score : ℚ
deriving DecidableEq, Repr

/-- The hard-coded `industryCompetitors` table of
`DiscoveryAgent.searchWithBasicFallback`, in object-literal order. -/
def industryCompetitors : List (String × List String) :=
  [ ("crm", ["salesforce.com", "hubspot.com", "pipedrive.com", "zoho.com", "freshworks.com"])
  , ("ecommerce", ["shopify.com", "woocommerce.com", "magento.com", "bigcommerce.com", "squarespace.com"])
  , ("saas", ["atlassian.com", "slack.com", "notion.so", "airtable.com", "monday.com"])
  , ("marketing", ["mailchimp.com", "constantcontact.com", "sendinblue.com", "convertkit.com", "aweber.com"])
  , ("analytics", ["google.com", "adobe.com", "mixpanel.com", "amplitude.com", "hotjar.com"])
  , ("project management", ["asana.com", "trello.com", "monday.com", "clickup.com", "basecamp.com"])
  , ("communication", ["slack.com", "microsoft.com", "zoom.us", "discord.com", "telegram.org"])
  , ("design", ["figma.com", "canva.com", "adobe.com", "sketch.com", "invisionapp.com"])
  , ("development", ["github.com", "gitlab.com", "bitbucket.org", "vercel.com", "netlify.com"])
  , ("ai", ["openai.com", "anthropic.com", "cohere.ai", "huggingface.co", "replicate.com"]) ]

/-- The general tech list pushed when no industry keyword matches. -/
def generalTechDomains : List String :=
  [ "microsoft.com", "google.com", "amazon.com", "apple.com", "meta.com"
  , "salesforce.com", "adobe.com", "oracle.com", "ibm.com", "servicenow.com" ]

/-- Model of `domain.split('.')[0].charAt(0).toUpperCase() + domain.split('.')[0].slice(1)`. -/
def capitalizeFirst (s : String) : String :=
  match s.data with
  | [] => ""
  | c :: cs => ⟨c.toUpper :: cs⟩

/-- The record the fallback builds for each domain. -/
def toFallbackResult (domain : String) : SearchResult :=
  { url := "https://" ++ domain
    title := capitalizeFirst ⟨(splitOnDot domain.data).headD []⟩ ++ " - Industry Leader"
    content := "Leading company in the industry providing competitive solutions."
    score := mkRat 8 10 }

/-- The matched-domains accumulation of `searchWithBasicFallback`: for each
table entry whose keyword (or its space-free form) occurs in the lowercased
query, its domains are pushed in table order. -/
def matchedIndustryDomains (query : String) : List String :=
  (industryCompetitors.filter (fun p =>
      jsIncludes (jsToLower query) p.1 || jsIncludes (jsToLower query) (removeFirstSpace p.1))).flatMap
    (fun p => p.2)

/-- Model of `DiscoveryAgent.searchWithBasicFallback` (src/unnamed/part_012,
lines 582–625). -/
def searchWithBasicFallback (query : String) : List SearchResult :=
  let matchedDomains := matchedIndustryDomains query
  let domains := if matchedDomains.isEmpty then generalTechDomains else matchedDomains
  (domains.take 8).map toFallbackResult

/-- Model of `DiscoveryAgent.searchWithTavily` (src/unnamed/part_012, lines 543–582):
with no API key configured it logs and returns `[]`; otherwise the HTTP call
is the oracle `fetched` (a failed or non-ok response yields `[]`, since both
error paths return `[]`). -/
def searchWithTavily (tavilyKey : Option String)
    (fetched : Except String (List SearchResult)) : List SearchResult :=
  match tavilyKey with
  | none => []
  | some _ =>
    match fetched with
    | .ok rs => rs
    | .error _ => []

/-- Model of `DiscoveryAgent.performSearch` (src/unnamed/part_012, lines 515–543):
Tavily first, and the basic fallback when Tavily yields no results. -/
def performSearch (tavilyKey : Option String)
    (fetched : Except String (List SearchResult)) (query : String) : List SearchResult :=
  let tavilyResults := searchWithTavily tavilyKey fetched
  if 0 < tavilyResults.length then tavilyResults
  else searchWithBasicFallback query

/-! ## DiscoveryAgent.discoverCompetitors result assembly
(src/unnamed/part_012, lines 308–362 and 794–816)

The per-query search/extraction loop is network-driven; its accumulated
`discoveredCompetitors` and `sources` arrays are the oracle inputs here.
The deterministic tail — deduplication, relevance sort, and the
20/50-element slices — is embedded directly. -/

/-- One discovered competitor. -/
structure Competitor where
  domain : String
  name : String
  description : String
  relevanceScore : ℚ
  industry : String
  similarityReasons : List String
deriving DecidableEq, Repr

/-- One discovered source. -/
structure DiscoverySource where
  url : String
  type : String
  relevance : ℚ
deriving DecidableEq, Repr

/-- The seen-set filter of `deduplicateAndScore` / `deduplicateSources`:
keep an element only when its key has not appeared before. -/
def dedupByKey {α β : Type} [BEq β] (key : α → β) : List β → List α → List α
  | _, [] => []
  | seen, x :: xs =>
    if seen.contains (key x) then dedupByKey key seen xs
    else x :: dedupByKey key (key x :: seen) xs

/-- The sort order of the comparator
`(a, b) => b.relevanceScore - a.relevanceScore`: `a` may precede `b`
exactly when its score is at least `b`'s. -/
def byScoreDesc (a b : Competitor) : Prop := b.relevanceScore ≤ a.relevanceScore

instance : DecidableRel byScoreDesc :=
  fun a b => inferInstanceAs (Decidable (b.relevanceScore ≤ a.relevanceScore))

instance : IsTotal Competitor byScoreDesc :=
  ⟨fun a b => le_total b.relevanceScore a.relevanceScore⟩

instance : IsTrans Competitor byScoreDesc :=
  ⟨fun _ _ _ h1 h2 => le_trans h2 h1⟩

/-- Model of `DiscoveryAgent.deduplicateAndScore` (src/unnamed/part_012,
lines 794–806): drop repeated domains (keeping first occurrences), then
sort by descending relevance score. -/
def deduplicateAndScore (competitors : List Competitor) : List Competitor :=
  List.insertionSort byScoreDesc (dedupByKey (fun c => c.domain) [] competitors)

/-- Model of `DiscoveryAgent.deduplicateSources` (src/unnamed/part_012,
lines 806–816): drop repeated URLs, keeping first occurrences. -/
def deduplicateSources (sources : List DiscoverySource) : List DiscoverySource :=
  dedupByKey (fun s => s.url) [] sources

/-- Model of `CompetitorDiscoveryResult`. -/
structure CompetitorDiscoveryResult where
  competitors : List Competitor
  sources : List DiscoverySource
deriving DecidableEq, Repr

/-- Model of `DiscoveryAgent.discoverCompetitors` (src/unnamed/part_012,
lines 308–362): fails early when the task has neither an industry nor
keywords; otherwise dedups and slices the accumulated competitors
(top 20) and sources (top 50). -/
def discoverCompetitors (industry : Option String) (keywords : Option (List String))
    (discoveredCompetitors : List Competitor) (sources : List DiscoverySource) :
    AgentResult CompetitorDiscoveryResult :=
  if industry.isNone && keywords.isNone then
    { success := false, error := some "Industry or keywords required for competitor discovery" }
  else
    { success := true
      data := some
        { competitors := (deduplicateAndScore discoveredCompetitors).take 20
          sources := (deduplicateSources sources).take 50 } }

/-! ## AddDomainForm domain validation (src/components/AddDomainForm.tsx) -/

/-- The class `[a-z0-9]` under the regex's `i` flag. -/
def isAlnumCI (c : Char) : Bool :=
  ('a' ≤ c && c ≤ 'z') || ('A' ≤ c && c ≤ 'Z') || ('0' ≤ c && c ≤ '9')

/-- The class `[a-z0-9-]` under the `i` flag. -/
def isAlnumDashCI (c : Char) : Bool :=
  isAlnumCI c || c == '-'

/-- One DNS label of the validator regex,
`[a-z0-9](?:[a-z0-9-]{0,61}[a-z0-9])?`: a single alphanumeric character, or
2 to 63 characters whose first and last are alphanumeric and whose middle
characters are alphanumeric or hyphens. -/
def validLabel : List Char → Bool
  | [] => false
  | [c] => isAlnumCI c
  | c :: rest =>
      isAlnumCI c && decide (rest.length ≤ 62) &&
        rest.dropLast.all isAlnumDashCI && isAlnumCI (rest.getLastD '-')

/-- The validator regex
`^(?:[a-z0-9](?:[a-z0-9-]{0,61}[a-z0-9])?\.)+[a-z0-9](?:[a-z0-9-]{0,61}[a-z0-9])?$/i`:
one or more dot-terminated labels followed by a final label — equivalently,
splitting on `.` yields at least two components, each a valid label. -/
def domainRegexTest (cs : List Char) : Bool :=
  let labels := splitOnDot cs
  decide (2 ≤ labels.length) && labels.all validLabel

/-- The cleaned form `domain.toLowerCase().replace(/^https?:\/\//, '').replace(/\/$/, '')`
built inside `validateDomain`. -/
def cleanForValidation (domain : String) : List Char :=
  stripTrailingSlash (stripProtocol (toLowerChars domain.data))

/-- Model of `validateDomain` (src/components/AddDomainForm.tsx, lines 25–30). -/
def validateDomain (domain : String) : Bool :=
  domainRegexTest (cleanForValidation domain)

/-- The `cleanDomain` persisted by `handleSubmit` (lines 56–67) and by
`addCompetitorToMonitoring`: lowercase, strip one trailing slash, and
prepend `https://` when no scheme is present. -/
def toStoredUrl (domain : String) : String :=
  let cs := stripTrailingSlash (toLowerChars domain.data)
  if startsWithChars cs "http://".data || startsWithChars cs "https://".data then ⟨cs⟩
  else "https://" ++ (⟨cs⟩ : String)

/-- The validation gate of `handleSubmit` (src/components/AddDomainForm.tsx,
lines 32–55): a submission reaches `createDomain` exactly when the domain
field is non-blank, passes `validateDomain`, and the name field is
non-blank. -/
def addDomainFormAccepts (domain name : String) : Bool :=
  !(jsTrim domain == "") && validateDomain domain && !(jsTrim name == "")

/-! ## AgentDashboard.addCompetitorToMonitoring
(src/components/AgentDashboard.tsx, lines 188–199) -/

/-- Model of `normalizeUrl` from `addCompetitorToMonitoring`:
`url.replace(/^https?:\/\//, '').replace(/\/$/, '').toLowerCase()` (the
protocol strip runs before lowercasing and is case-sensitive). -/
def normalizeUrl (url : String) : String :=
  ⟨toLowerChars (stripTrailingSlash (stripProtocol url.data))⟩

/-- Outcome of `addCompetitorToMonitoring`: an "already monitored" warning,
a created domain record, or the toast shown when `createDomain` throws. -/
inductive AddOutcome
  | warned
  | created (stored : String)
  | showedError
deriving DecidableEq, Repr

/-- Model of `addCompetitorToMonitoring`: the monitored list is represented by the
`domain` fields of the user's domain records; `create` is the Appwrite
`createDomain` call (an oracle that may reject).  On a normalized duplicate
the function warns and returns early, leaving the list unchanged; otherwise
the stored record is prepended (`setDomains(prev => [newDomain, ...prev])`). -/
def addCompetitorToMonitoring (create : Except String Unit)
    (monitored : List String) (competitorDomain : String) : List String × AddOutcome :=
  if monitored.any (fun d => normalizeUrl d == normalizeUrl competitorDomain) then
    (monitored, AddOutcome.warned)
  else
    match create with
    | .ok _ => (toStoredUrl competitorDomain :: monitored, AddOutcome.created (toStoredUrl competitorDomain))
    | .error _ => (monitored, AddOutcome.showedError)

/-! ## Dashboard job flow (src/components/AgentDashboard.tsx, lines 88–185,
and DatabaseService.createJob/updateJob, src/unnamed/part_011) -/

/-- The `status` attribute of a `Job` record. -/
inductive JobStatus
  | pending
  | running
  | completed
  | failed
deriving DecidableEq, Repr

/-- The fields of a persisted `Job` record that the dashboard flow writes. -/
structure JobRec where
  status : JobStatus
  progress : Nat
  error : Option String
  result : Option String
deriving DecidableEq, Repr

/-- The partial-update object passed to `DatabaseService.updateJob`.  A
`none` field is absent (JavaScript `undefined`, dropped by JSON
serialization, so the stored value is untouched); for the nullable `result`
and `error` attributes, `some none` writes an explicit `null`. -/
structure JobUpdateArgs where
  status : Option JobStatus := none
  progress : Option Nat := none
  error : Option (Option String) := none
  result : Option (Option String) := none
deriving DecidableEq, Repr

/-- Model of `DatabaseService.updateJob` (src/unnamed/part_011, lines 244–277)
restricted to the written fields: present fields overwrite, absent fields
keep the stored value. -/
def applyJobUpdate (r : JobRec) (u : JobUpdateArgs) : JobRec :=
  { status := u.status.getD r.status
    progress := u.progress.getD r.progress
    error := u.error.getD r.error
    result := u.result.getD r.result }

/-- Model of `DatabaseService.createJob` (src/unnamed/part_011, lines 190–222) for
the dashboard's create call: `status: 'pending'` is passed, `progress`
defaults to 0, `error` and `result` are unset. -/
def createdJob : JobRec :=
  { status := JobStatus.pending, progress := 0, error := none, result := none }

/-- JavaScript `a || b` on the `error` field of the agent API response
(`data.error || 'Discovery failed'`): a missing or empty string falls back
to the default. -/
def jsOrDefault (o : Option String) (d : String) : String :=
  match o with
  | some s => if s == "" then d else s
  | none => d

/-- The first update of the flow: `{status: 'running', progress: 10}`. -/
def runningUpdate : JobUpdateArgs :=
  { status := some JobStatus.running, progress := some 10 }

/-- The final update of the flow:
`{status, result, error, progress: 100}` from the API response. -/
def completionUpdate (apiSuccess : Bool) (apiData : Option String)
    (apiError : Option String) (defaultError : String) : JobUpdateArgs :=
  { status := some (if apiSuccess then JobStatus.completed else JobStatus.failed)
    result := some (if apiSuccess then apiData else none)
    error := if apiSuccess then none else some (some (jsOrDefault apiError defaultError))
    progress := some 100 }

/-- One observable step of a dashboard job flow. -/
inductive FlowEvent
  | dbCreate (j : JobRec)
  | dbUpdate (j : JobRec)
  | apiCall
deriving DecidableEq, Repr

/-- The straight-line body shared by `startDiscovery` and `startCrawling`:
create pending, update to running, call the agent API, then write the
completion update.  `apiSuccess`/`apiData`/`apiError` are the parsed JSON
response of the `fetch`. -/
def dashboardJobFlow (defaultError : String) (apiSuccess : Bool)
    (apiData : Option String) (apiError : Option String) : List FlowEvent :=
  let job0 := createdJob
  let job1 := applyJobUpdate job0 runningUpdate
  let job2 := applyJobUpdate job1 (completionUpdate apiSuccess apiData apiError defaultError)
  [FlowEvent.dbCreate job0, FlowEvent.dbUpdate job1, FlowEvent.apiCall, FlowEvent.dbUpdate job2]

/-- Model of `startDiscovery` (src/components/AgentDashboard.tsx, lines 88–131). -/
def startDiscoveryFlow (apiSuccess : Bool) (apiData : Option String)
    (apiError : Option String) : List FlowEvent :=
  dashboardJobFlow "Discovery failed" apiSuccess apiData apiError

/-- Model of `startCrawling` (src/components/AgentDashboard.tsx, lines 133–185). -/
def startCrawlingFlow (apiSuccess : Bool) (apiData : Option String)
    (apiError : Option String) : List FlowEvent :=
  dashboardJobFlow "Crawling failed" apiSuccess apiData apiError

/-- The job states a flow writes, in write order. -/
def flowJobStates (events : List FlowEvent) : List JobRec :=
  events.filterMap (fun e =>
    match e with
    | FlowEvent.dbCreate j => some j
    | FlowEvent.dbUpdate j => some j
    | FlowEvent.apiCall => none)

/-! ## PATCH /api/agents/research (src/app/api/agents/research/route.ts,
lines 319–377) -/

/-- The job records and in-flight research tasks the route could have
consulted. -/
structure ResearchRouteState where
  jobs : List (String × JobRec)
  runningTasks : List String
deriving DecidableEq, Repr

/-- The JSON responses the PATCH handler produces. -/
inductive PatchResponse
  | jsonOk (success : Bool) (message : String)
  | jsonStatus (taskId status : String) (progress : Nat) (currentPhase estimatedCompletion : String)
  | httpError (status : Nat) (error : String)
deriving DecidableEq, Repr

/-- The PATCH handler: `taskId`/`action` are the request-body fields
(`none` = absent).  A falsy `taskId` (absent or empty) is rejected with
400; `cancel` and `status` answer fixed payloads without touching any
state; other actions get 400. -/
def patchResearch (st : ResearchRouteState) (taskId : Option String)
    (action : Option String) : ResearchRouteState × PatchResponse :=
  let falsy := match taskId with
    | none => true
    | some t => t == ""
  if falsy then
    (st, PatchResponse.httpError 400 "Task ID is required")
  else
    let tid := taskId.getD ""
    match action with
    | some "cancel" =>
        (st, PatchResponse.jsonOk true ("Research task " ++ tid ++ " has been cancelled"))
    | some "status" =>
        (st, PatchResponse.jsonStatus tid "running" 65 "AI Analysis" "2 minutes")
    | _ =>
        (st, PatchResponse.httpError 400 "Invalid action. Supported actions: cancel, status")

/-- A concrete crawl oracle used for evaluation: `a.com` rejects, every
other domain fulfils. -/
def sampleCrawl (d : String) : Except String CrawlingResult :=
  if d == "a.com" then
    Except.error "boom"
  else
    Except.ok
      { success := true
        domain := d
        crawlMetrics :=
          { responseTime := 120
            statusCode := 200
            contentSize := 5000
            timestamp := "2024-01-01" } }

/-- Raw discovered competitors used for evaluation: `airtable.com` occurs
twice with different scores. -/
def sampleCompetitors : List Competitor :=
  [ ⟨"airtable.com", "Airtable", "Grid", mkRat 1 2, "saas", []⟩
  , ⟨"notion.so", "Notion", "Docs", mkRat 9 10, "saas", []⟩
  , ⟨"airtable.com", "Airtable dup", "Grid", mkRat 3 4, "saas", []⟩ ]

/-- Raw discovered sources used for evaluation: `https://x.com` occurs
twice. -/
def sampleSources : List DiscoverySource :=
  [ ⟨"https://x.com", "news", mkRat 1 2⟩
  , ⟨"https://x.com", "blog", mkRat 1 4⟩
  , ⟨"https://y.com", "blog", mkRat 1 4⟩ ]

/-- The deduplicated, score-sorted, sliced result of running
`discoverCompetitors` on the sample inputs. -/
def sampleDiscoveryResult : CompetitorDiscoveryResult :=
  { competitors :=
      [ ⟨"notion.so", "Notion", "Docs", mkRat 9 10, "saas", []⟩
      , ⟨"airtable.com", "Airtable", "Grid", mkRat 1 2, "saas", []⟩ ]
    sources :=
      [ ⟨"https://x.com", "news", mkRat 1 2⟩
      , ⟨"https://y.com", "blog", mkRat 1 4⟩ ] }

/-! ## Theorems -/

/-- The try/catch/finally wrapper always resolves, and leaves the config
idle. -/
theorem executeWrapper_spec {α : Type} (cfg : AgentConfig)
    (body : Except String (AgentResult α)) :
    (∀ r, body = .ok r →
      executeWrapper cfg body = .ok ({ cfg with status := AgentStatus.idle }, r)) ∧
    (∀ msg, body = .error msg →
      executeWrapper cfg body = .ok ({ cfg with status := AgentStatus.idle },
        { success := false, data := none, error := some msg })) := by
  constructor <;> rintro x rfl <;> rfl

/-- C1: For every task value, `DiscoveryAgent.execute(task)` and
`CrawlingAgent.execute(task)` resolve rather than reject: whatever the
handlers do (including throwing), and for an unknown task type, the promise
resolves, and on any exception the returned value is
`{success: false, error: <message string>}`. -/
theorem C1_execute_always_resolves {α : Type}
    (dh : DiscoveryTaskType → Except String (AgentResult α))
    (ch : CrawlingTaskType → Except String (AgentResult α))
    (cfg : AgentConfig) (dt : DiscoveryTaskType) (ct : CrawlingTaskType) :
    (∃ out, DiscoveryAgent.execute dh cfg dt = .ok out) ∧
    (∃ out, CrawlingAgent.execute ch cfg ct = .ok out) ∧
    (∀ msg, discoveryDispatch dh dt = .error msg →
      DiscoveryAgent.execute dh cfg dt = .ok ({ cfg with status := AgentStatus.idle },
        { success := false, data := none, error := some msg })) ∧
    (∀ msg, crawlingDispatch ch ct = .error msg →
      CrawlingAgent.execute ch cfg ct = .ok ({ cfg with status := AgentStatus.idle },
        { success := false, data := none, error := some msg })) ∧
    (∀ s, DiscoveryAgent.execute dh cfg (DiscoveryTaskType.unknown s) =
      .ok ({ cfg with status := AgentStatus.idle },
        { success := false, data := none, error := some ("Unknown task type: " ++ s) })) ∧
    (∀ s, CrawlingAgent.execute ch cfg (CrawlingTaskType.unknown s) =
      .ok ({ cfg with status := AgentStatus.idle },
        { success := false, data := none, error := some ("Unknown crawling task type: " ++ s) })) := by
  refine ⟨?_, ?_, ?_, ?_, ?_, ?_⟩
  · cases h : discoveryDispatch dh dt with
    | ok r => exact ⟨_, (executeWrapper_spec cfg _).1 r h⟩
    | error m => exact ⟨_, (executeWrapper_spec cfg _).2 m h⟩
  · cases h : crawlingDispatch ch ct with
    | ok r => exact ⟨_, (executeWrapper_spec cfg _).1 r h⟩
    | error m => exact ⟨_, (executeWrapper_spec cfg _).2 m h⟩
  · exact fun msg h => (executeWrapper_spec cfg _).2 msg h
  · exact fun msg h => (executeWrapper_spec cfg _).2 msg h
  · exact fun s => (executeWrapper_spec cfg _).2 _ rfl
  · exact fun s => (executeWrapper_spec cfg _).2 _ rfl

/-- C1 witness: with handlers that reject, an unknown-typed task still
resolves to `{success:false, error: "Unknown task type: transmute"}`. -/
theorem C1_execute_always_resolves_witness :
    DiscoveryAgent.execute (fun _ => Except.error "boom")
        ⟨"discovery_agent", "Discovery Agent", "Competitor & Source Discovery", [], AgentStatus.idle⟩
        (DiscoveryTaskType.unknown "transmute") =
      Except.ok (⟨"discovery_agent", "Discovery Agent", "Competitor & Source Discovery", [],
          AgentStatus.idle⟩,
        { success := false, data := (none : Option Unit),
          error := some ("Unknown task type: " ++ "transmute") }) ∧
    CrawlingAgent.execute (fun _ => Except.error "boom")
        ⟨"crawling_agent", "Intelligent Web Crawling Agent", "Web crawling", [], AgentStatus.idle⟩
        (CrawlingTaskType.unknown "transmute") =
      Except.ok (⟨"crawling_agent", "Intelligent Web Crawling Agent", "Web crawling", [],
          AgentStatus.idle⟩,
        { success := false, data := (none : Option Unit),
          error := some ("Unknown crawling task type: " ++ "transmute") }) :=
  ⟨(C1_execute_always_resolves (fun _ => Except.error "boom") (fun _ => Except.error "boom")
      ⟨"discovery_agent", "Discovery Agent", "Competitor & Source Discovery", [], AgentStatus.idle⟩
      (DiscoveryTaskType.unknown "transmute") (CrawlingTaskType.unknown "transmute")).2.2.1 _ rfl,
   (C1_execute_always_resolves (fun _ => Except.error "boom") (fun _ => Except.error "boom")
      ⟨"crawling_agent", "Intelligent Web Crawling Agent", "Web crawling", [], AgentStatus.idle⟩
      (DiscoveryTaskType.unknown "transmute") (CrawlingTaskType.unknown "transmute")).2.2.2.1 _ rfl⟩

/-- C9: after `execute` resolves on either agent, the reported status is
`'idle'` — the `'error'` status set in the catch block is overwritten by the
finally block, so it is never observable after `execute` returns. -/
theorem C9_status_idle_after_execute {α : Type}
    (dh : DiscoveryTaskType → Except String (AgentResult α))
    (ch : CrawlingTaskType → Except String (AgentResult α))
    (cfg : AgentConfig) (dt : DiscoveryTaskType) (ct : CrawlingTaskType) :
    (∀ cfg2 r, DiscoveryAgent.execute dh cfg dt = .ok (cfg2, r) →
      (BaseAgent.getStatus cfg2).status = AgentStatus.idle) ∧
    (∀ cfg2 r, CrawlingAgent.execute ch cfg ct = .ok (cfg2, r) →
      (BaseAgent.getStatus cfg2).status = AgentStatus.idle) := by
  constructor
  · intro cfg2 r h
    cases hb : discoveryDispatch dh dt with
    | ok r' =>
        rw [DiscoveryAgent.execute, (executeWrapper_spec cfg _).1 r' hb] at h
        obtain ⟨h1, -⟩ := Prod.mk.injEq .. ▸ Except.ok.injEq .. ▸ h
        exact h1 ▸ rfl
    | error m =>
        rw [DiscoveryAgent.execute, (executeWrapper_spec cfg _).2 m hb] at h
        obtain ⟨h1, -⟩ := Prod.mk.injEq .. ▸ Except.ok.injEq .. ▸ h
        exact h1 ▸ rfl
  · intro cfg2 r h
    cases hb : crawlingDispatch ch ct with
    | ok r' =>
        rw [CrawlingAgent.execute, (executeWrapper_spec cfg _).1 r' hb] at h
        obtain ⟨h1, -⟩ := Prod.mk.injEq .. ▸ Except.ok.injEq .. ▸ h
        exact h1 ▸ rfl
    | error m =>
        rw [CrawlingAgent.execute, (executeWrapper_spec cfg _).2 m hb] at h
        obtain ⟨h1, -⟩ := Prod.mk.injEq .. ▸ Except.ok.injEq .. ▸ h
        exact h1 ▸ rfl

/-- C9 witness: an agent that started in `'error'` status and whose task
handler throws still reports `'idle'` after `execute` resolves. -/
theorem C9_status_idle_after_execute_witness :
    (BaseAgent.getStatus ⟨"discovery_agent", "Discovery Agent", "Competitor & Source Discovery",
        [], AgentStatus.idle⟩).status = AgentStatus.idle :=
  (C9_status_idle_after_execute (α := Unit) (fun _ => Except.error "api down")
      (fun _ => Except.error "api down")
      ⟨"discovery_agent", "Discovery Agent", "Competitor & Source Discovery", [], AgentStatus.error⟩
      DiscoveryTaskType.discover_competitors CrawlingTaskType.batch_crawl).1
    ⟨"discovery_agent", "Discovery Agent", "Competitor & Source Discovery", [], AgentStatus.idle⟩
    { success := false, data := none, error := some "api down" } rfl

/-- C4: `AgentOrchestrator.executeTask` throws `Agent <id> not found` when
no agent is registered under the id, and otherwise returns the registered
agent's `execute(task)`. -/
theorem C4_executeTask_spec {τ α : Type} (o : AgentOrchestrator τ α)
    (agentId : String) (task : τ) :
    ((∀ p ∈ o.agents, p.1 ≠ agentId) →
      o.executeTask agentId task = .error ("Agent " ++ agentId ++ " not found")) ∧
    (∀ ex, o.getAgent agentId = some ex →
      o.executeTask agentId task = .ok (ex task)) := by
  constructor
  · intro h
    have hfind : o.agents.find? (fun p => p.1 == agentId) = none := by
      rw [List.find?_eq_none]
      intro p hp
      simpa using h p hp
    rw [AgentOrchestrator.executeTask, AgentOrchestrator.getAgent, hfind]
    rfl
  · intro ex h
    rw [AgentOrchestrator.executeTask, h]

/-- C4 witness: a one-agent orchestrator rejects an unknown id and runs the
registered agent's execute. -/
theorem C4_executeTask_spec_witness :
    (AgentOrchestrator.executeTask (τ := Unit) (α := Unit)
        ⟨[("discovery_agent", fun _ => { success := true })]⟩ "research_agent" () =
      Except.error ("Agent " ++ "research_agent" ++ " not found")) ∧
    (AgentOrchestrator.executeTask (τ := Unit) (α := Unit)
        ⟨[("discovery_agent", fun _ => { success := true })]⟩ "discovery_agent" () =
      Except.ok { success := true }) :=
  ⟨(C4_executeTask_spec ⟨[("discovery_agent", fun _ => { success := true })]⟩ "research_agent" ()).1
      (by intro p hp; simp at hp; subst hp; decide),
   (C4_executeTask_spec ⟨[("discovery_agent", fun _ => { success := true })]⟩ "discovery_agent" ()).2
      _ rfl⟩

/-- C7: `addCompetitorToMonitoring` creates nothing when some monitored
domain equals the competitor's domain after normalization: it warns and
leaves the domain list unchanged. -/
theorem C7_duplicate_competitor_rejected (create : Except String Unit)
    (monitored : List String) (competitorDomain : String)
    (h : ∃ d ∈ monitored, normalizeUrl d = normalizeUrl competitorDomain) :
    addCompetitorToMonitoring create monitored competitorDomain =
      (monitored, AddOutcome.warned) := by
  have hany : (monitored.any (fun d => normalizeUrl d == normalizeUrl competitorDomain)) = true := by
    obtain ⟨d, hd, he⟩ := h
    exact List.any_eq_true.mpr ⟨d, hd, beq_iff_eq.mpr he⟩
  rw [addCompetitorToMonitoring.eq_def, hany]
  rfl

/-- C7 witness: adding `Example.com/` while `https://example.com` is
already monitored leaves the list unchanged. -/
theorem C7_duplicate_competitor_rejected_witness :
    addCompetitorToMonitoring (Except.ok ()) ["https://example.com", "https://other.io"]
        "Example.com/" =
      (["https://example.com", "https://other.io"], AddOutcome.warned) :=
  C7_duplicate_competitor_rejected (Except.ok ()) ["https://example.com", "https://other.io"]
    "Example.com/" ⟨"https://example.com", by decide, by decide⟩

/-- C8 counterexample: the claim quantifies over every `taskId`, but for the
(falsy) task id `""` with action `'cancel'` the handler answers HTTP 400,
not `{success:true}`. -/
theorem C8_empty_taskId_counterexample :
    patchResearch ⟨[], []⟩ (some "") (some "cancel") =
      (⟨[], []⟩, PatchResponse.httpError 400 "Task ID is required") := rfl

/-- C8 (amended): for every non-empty `taskId`, the PATCH handler with
action `'cancel'` returns `{success:true}` with a cancellation message while
performing no cancellation — the job records and running-task state are
returned untouched and the response does not depend on them. -/
theorem C8_cancel_is_stub (st : ResearchRouteState) (tid : String) (h : tid ≠ "") :
    patchResearch st (some tid) (some "cancel") =
      (st, PatchResponse.jsonOk true ("Research task " ++ tid ++ " has been cancelled")) := by
  have hne : (tid == "") = false := beq_eq_false_iff_ne.mpr h
  rw [patchResearch]
  simp only [hne]
  rfl

/-- C8 witness: cancelling a non-empty task id over a state with a running
job reports success and leaves the state intact. -/
theorem C8_cancel_is_stub_witness :
    patchResearch ⟨[("job_1", ⟨JobStatus.running, 10, none, none⟩)], ["task_42"]⟩
        (some "task_42") (some "cancel") =
      (⟨[("job_1", ⟨JobStatus.running, 10, none, none⟩)], ["task_42"]⟩,
        PatchResponse.jsonOk true ("Research task " ++ "task_42" ++ " has been cancelled")) :=
  C8_cancel_is_stub ⟨[("job_1", ⟨JobStatus.running, 10, none, none⟩)], ["task_42"]⟩ "task_42"
    (by decide)

/-- C5: with no Tavily API key configured, `performSearch` returns the
basic fallback for every query (it cannot throw — it is a total function of
the query): at most 8 entries, each with score 0.8, taken from the industry
list whose keyword occurs in the query, or from the fixed general list when
no keyword matches. -/
theorem C5_no_key_fallback (fetched : Except String (List SearchResult)) (query : String) :
    performSearch none fetched query = searchWithBasicFallback query ∧
    (performSearch none fetched query).length ≤ 8 ∧
    (∀ r ∈ performSearch none fetched query, r.score = mkRat 8 10) ∧
    (matchedIndustryDomains query = [] →
      performSearch none fetched query = (generalTechDomains.take 8).map toFallbackResult) ∧
    (∀ kw doms,
      industryCompetitors.filter (fun p =>
          jsIncludes (jsToLower query) p.1 || jsIncludes (jsToLower query) (removeFirstSpace p.1)) =
        [(kw, doms)] →
      doms ≠ [] →
      performSearch none fetched query = (doms.take 8).map toFallbackResult) := by
  have hbase : performSearch none fetched query = searchWithBasicFallback query := rfl
  have hform : ∀ ds : List String,
      (if ds.isEmpty then generalTechDomains else ds) = ds ∨ ds = [] := by
    intro ds
    cases ds with
    | nil => exact Or.inr rfl
    | cons d tl => exact Or.inl rfl
  refine ⟨hbase, ?_, ?_, ?_, ?_⟩
  · rw [hbase, searchWithBasicFallback, List.length_map, List.length_take]
    exact min_le_left _ _
  · intro r hr
    rw [hbase, searchWithBasicFallback] at hr
    obtain ⟨d, -, rfl⟩ := List.mem_map.mp hr
    rfl
  · intro h
    rw [hbase, searchWithBasicFallback, matchedIndustryDomains] at *
    rw [h]
    rfl
  · intro kw doms hfilter hne
    have hmatched : matchedIndustryDomains query = doms := by
      rw [matchedIndustryDomains, hfilter]
      simp
    have hempty : doms.isEmpty = false := by
      cases doms with
      | nil => exact absurd rfl hne
      | cons d tl => rfl
    rw [hbase, searchWithBasicFallback, hmatched, hempty]
    rfl

/-- C5 witness: a query matching no industry keyword gets the general list;
`best crm tools 2024` matches exactly the `crm` entry and gets its five
domains. -/
theorem C5_no_key_fallback_witness :
    (matchedIndustryDomains "widgets" = [] ∧
      performSearch none (Except.error "offline") "widgets" =
        (generalTechDomains.take 8).map toFallbackResult) ∧
    (industryCompetitors.filter (fun p =>
        jsIncludes (jsToLower "best crm tools 2024") p.1 ||
          jsIncludes (jsToLower "best crm tools 2024") (removeFirstSpace p.1)) =
      [("crm", ["salesforce.com", "hubspot.com", "pipedrive.com", "zoho.com", "freshworks.com"])] ∧
      performSearch none (Except.error "offline") "best crm tools 2024" =
        ((["salesforce.com", "hubspot.com", "pipedrive.com", "zoho.com",
            "freshworks.com"] : List String).take 8).map toFallbackResult) :=
  ⟨⟨by decide, (C5_no_key_fallback (Except.error "offline") "widgets").2.2.2.1 (by decide)⟩,
   ⟨by decide, (C5_no_key_fallback (Except.error "offline") "best crm tools 2024").2.2.2.2 "crm"
      ["salesforce.com", "hubspot.com", "pipedrive.com", "zoho.com", "freshworks.com"]
      (by decide) (by decide)⟩⟩

/-- The batch loop crawls exactly the requested domains in order, and
sleeps once between consecutive batches. -/
theorem batchLoop_spec (crawl : String → Except String CrawlingResult) (now : String)
    (domains : List String) :
    (batchLoop crawl now domains).1 = domains.map (settleCrawl crawl now) ∧
    (batchLoop crawl now domains).2 = (chunksOf 3 domains).length - 1 := by
  have key : ∀ (n : Nat) (ds : List String), ds.length ≤ n →
      (batchLoop crawl now ds).1 = ds.map (settleCrawl crawl now) ∧
      (batchLoop crawl now ds).2 = (chunksOf 3 ds).length - 1 := by
    intro n
    induction n with
    | zero =>
        intro ds h
        have : ds = [] := List.eq_nil_of_length_eq_zero (Nat.le_zero.mp h)
        subst this
        constructor <;> simp [batchLoop, chunksOf]
    | succ n ih =>
        intro ds h
        cases ds with
        | nil => constructor <;> simp [batchLoop, chunksOf]
        | cons d tl =>
            have hrest : ((d :: tl).drop 3).length ≤ n := by
              simp only [List.length_drop, List.length_cons] at h ⊢
              omega
            obtain ⟨ih1, ih2⟩ := ih _ hrest
            constructor
            · rw [batchLoop]
              simp only []
              rw [ih1, ← List.map_append, List.take_append_drop]
            · rw [batchLoop]
              simp only []
              have hd : (d :: tl).drop 3 = tl.drop (3 - 1) := rfl
              have hco : chunksOf 3 (d :: tl) =
                  (d :: tl.take (3 - 1)) :: chunksOf 3 (tl.drop (3 - 1)) := by
                rw [chunksOf]
              rw [ih2, hd, hco, List.length_cons]
              cases htl : tl.drop (3 - 1) with
              | nil => simp [chunksOf]
              | cons r rs =>
                  have h1 : 1 ≤ (chunksOf 3 (r :: rs)).length := by
                    rw [chunksOf]
                    simp
                  simp only [List.isEmpty_cons, Bool.false_eq_true, if_false]
                  omega
  exact key domains.length domains le_rfl

/-- Chunks reassemble to the original list. -/
theorem chunksOf_flatten {α : Type} (n : Nat) (l : List α) :
    (chunksOf n l).flatten = l := by
  have key : ∀ (m : Nat) (l : List α), l.length ≤ m → (chunksOf n l).flatten = l := by
    intro m
    induction m with
    | zero =>
        intro l h
        have : l = [] := List.eq_nil_of_length_eq_zero (Nat.le_zero.mp h)
        subst this
        simp [chunksOf]
    | succ m ih =>
        intro l h
        cases l with
        | nil => simp [chunksOf]
        | cons x xs =>
            have hrest : (xs.drop (n - 1)).length ≤ m := by
              simp only [List.length_drop, List.length_cons] at h ⊢
              omega
            rw [chunksOf, List.flatten_cons, ih _ hrest, List.cons_append,
              List.take_append_drop]
  exact key l.length l le_rfl

/-- Every chunk produced with width 3 has at most 3 elements. -/
theorem chunksOf_three_length_le {α : Type} (l : List α) :
    ∀ b ∈ chunksOf 3 l, b.length ≤ 3 := by
  have key : ∀ (m : Nat) (l : List α), l.length ≤ m → ∀ b ∈ chunksOf 3 l, b.length ≤ 3 := by
    intro m
    induction m with
    | zero =>
        intro l h
        have : l = [] := List.eq_nil_of_length_eq_zero (Nat.le_zero.mp h)
        subst this
        intro b hb
        simp [chunksOf] at hb
    | succ m ih =>
        intro l h b hb
        cases l with
        | nil => simp [chunksOf] at hb
        | cons x xs =>
            rw [chunksOf] at hb
            rcases List.mem_cons.mp hb with hb | hb
            · subst hb
              have := List.length_take_le (3 - 1) xs
              simp only [List.length_cons]
              omega
            · have hrest : (xs.drop 2).length ≤ m := by
                simp only [List.length_drop, List.length_cons] at h ⊢
                omega
              exact ih _ hrest b hb
  exact key l.length l le_rfl

/-- C3: for every non-empty `domains` list, `batchCrawl` reports
`successful + failed = results.length = domains.length`, a success rate of
`successful / totalCrawled * 100`, an overall success flag that holds
exactly when some per-domain crawl succeeded, and results produced in
order-preserving batches of at most 3 domains with one delay between
consecutive batches. -/
theorem C3_batchCrawl_accounting (crawl : String → Except String CrawlingResult)
    (now : String) (domains : List String) (hne : domains ≠ []) :
    ∃ bd : BatchCrawlingResult,
      CrawlingAgent.batchCrawl crawl now domains =
        { success := decide (0 < bd.successful), data := some bd, error := none } ∧
      bd.results = domains.map (settleCrawl crawl now) ∧
      bd.successful + bd.failed = bd.results.length ∧
      bd.results.length = domains.length ∧
      bd.summary.totalCrawled = domains.length ∧
      bd.summary.successRate = (bd.successful : ℚ) / (domains.length : ℚ) * 100 ∧
      ((CrawlingAgent.batchCrawl crawl now domains).success = true ↔
        ∃ r ∈ bd.results, r.success = true) ∧
      bd.results = ((chunksOf 3 domains).map (fun b => b.map (settleCrawl crawl now))).flatten ∧
      (∀ b ∈ chunksOf 3 domains, b.length ≤ 3) ∧
      (chunksOf 3 domains).flatten = domains ∧
      (batchLoop crawl now domains).2 = (chunksOf 3 domains).length - 1 := by
  have hempty : domains.isEmpty = false := by
    cases domains with
    | nil => exact absurd rfl hne
    | cons d tl => rfl
  obtain ⟨hres, hdel⟩ := batchLoop_spec crawl now domains
  set results := (batchLoop crawl now domains).1 with hresults
  have hlen : results.length = domains.length := by rw [hres, List.length_map]
  have hsplit : (results.filter (fun r => r.success)).length +
      (results.filter (fun r => !r.success)).length = results.length := by
    have := List.length_eq_length_filter_add (l := results) (fun r => r.success)
    omega
  have hcrawl : CrawlingAgent.batchCrawl crawl now domains =
      { success := decide (0 < (results.filter (fun r => r.success)).length)
        data := some
          { successful := (results.filter (fun r => r.success)).length
            failed := (results.filter (fun r => !r.success)).length
            results := results
            summary :=
              { totalCrawled := results.length
                successRate := (((results.filter (fun r => r.success)).length : ℚ) /
                  (results.length : ℚ)) * 100 } }
        error := none } := by
    rw [CrawlingAgent.batchCrawl, hempty]
    rfl
  refine ⟨{ successful := (results.filter (fun r => r.success)).length
            failed := (results.filter (fun r => !r.success)).length
            results := results
            summary :=
              { totalCrawled := results.length
                successRate := (((results.filter (fun r => r.success)).length : ℚ) /
                  (results.length : ℚ)) * 100 } },
    hcrawl, hres, hsplit, hlen, hlen, ?_, ?_, ?_, chunksOf_three_length_le domains,
    chunksOf_flatten 3 domains, hdel⟩
  · show (((results.filter (fun r => r.success)).length : ℚ) / (results.length : ℚ)) * 100 =
      ((results.filter (fun r => r.success)).length : ℚ) / (domains.length : ℚ) * 100
    rw [hlen]
  · rw [hcrawl]
    show decide (0 < (results.filter (fun r => r.success)).length) = true ↔ _
    simp only [decide_eq_true_eq]
    constructor
    · intro hpos
      have hne2 : results.filter (fun r => r.success) ≠ [] := by
        intro hnil
        rw [hnil] at hpos
        exact Nat.lt_irrefl 0 hpos
      obtain ⟨r, hr⟩ := List.exists_mem_of_ne_nil _ hne2
      obtain ⟨hmem, hsucc⟩ := List.mem_filter.mp hr
      exact ⟨r, hmem, hsucc⟩
    · rintro ⟨r, hmem, hsucc⟩
      exact List.length_pos.mpr (fun hnil =>
        List.not_mem_nil r (hnil ▸ List.mem_filter.mpr ⟨hmem, hsucc⟩))
  · show results = ((chunksOf 3 domains).map (fun b => b.map (settleCrawl crawl now))).flatten
    rw [hres]
    conv_lhs => rw [← chunksOf_flatten 3 domains]
    rw [List.map_flatten]

/-- C3 witness: four domains, one of which rejects, crawled in batches of
three. -/
theorem C3_batchCrawl_accounting_witness :
    (["a.com", "b.com", "c.com", "d.com"] : List String) ≠ [] ∧
    ∃ bd : BatchCrawlingResult,
      CrawlingAgent.batchCrawl sampleCrawl "2024-01-01" ["a.com", "b.com", "c.com", "d.com"] =
        { success := decide (0 < bd.successful), data := some bd, error := none } ∧
      bd.results = (["a.com", "b.com", "c.com", "d.com"] : List String).map
        (settleCrawl sampleCrawl "2024-01-01") ∧
      bd.successful + bd.failed = bd.results.length ∧
      bd.results.length = (["a.com", "b.com", "c.com", "d.com"] : List String).length ∧
      bd.summary.totalCrawled = (["a.com", "b.com", "c.com", "d.com"] : List String).length ∧
      bd.summary.successRate = (bd.successful : ℚ) /
        (((["a.com", "b.com", "c.com", "d.com"] : List String).length : ℚ)) * 100 ∧
      ((CrawlingAgent.batchCrawl sampleCrawl "2024-01-01"
          ["a.com", "b.com", "c.com", "d.com"]).success = true ↔
        ∃ r ∈ bd.results, r.success = true) ∧
      bd.results = ((chunksOf 3 ["a.com", "b.com", "c.com", "d.com"]).map
        (fun b => b.map (settleCrawl sampleCrawl "2024-01-01"))).flatten ∧
      (∀ b ∈ chunksOf 3 ["a.com", "b.com", "c.com", "d.com"], b.length ≤ 3) ∧
      (chunksOf 3 ["a.com", "b.com", "c.com", "d.com"]).flatten =
        ["a.com", "b.com", "c.com", "d.com"] ∧
      (batchLoop sampleCrawl "2024-01-01" ["a.com", "b.com", "c.com", "d.com"]).2 =
        (chunksOf 3 ["a.com", "b.com", "c.com", "d.com"]).length - 1 :=
  ⟨by decide,
   C3_batchCrawl_accounting sampleCrawl "2024-01-01" ["a.com", "b.com", "c.com", "d.com"]
     (by decide)⟩

/-- The seen-set filter keeps pairwise-distinct keys, none of them in the
initial seen set. -/
theorem dedupByKey_spec {α β : Type} [BEq β] [LawfulBEq β] (key : α → β) :
    ∀ (seen : List β) (l : List α),
      ((dedupByKey key seen l).map key).Nodup ∧
      ∀ x ∈ dedupByKey key seen l, key x ∉ seen := by
  intro seen l
  induction l generalizing seen with
  | nil =>
      refine ⟨List.nodup_nil, ?_⟩
      intro x hx
      cases hx
  | cons x xs ih =>
      rw [dedupByKey]
      cases hc : seen.contains (key x) with
      | true =>
          simp only [if_pos]
          exact ih seen
      | false =>
          simp only [Bool.false_eq_true, if_false]
          obtain ⟨ihnodup, ihseen⟩ := ih (key x :: seen)
          constructor
          · rw [List.map_cons, List.nodup_cons]
            refine ⟨?_, ihnodup⟩
            intro hmem
            obtain ⟨y, hy, hky⟩ := List.mem_map.mp hmem
            exact ihseen y hy (hky ▸ List.mem_cons_self _ _)
          · intro z hz
            rcases List.mem_cons.mp hz with rfl | hz
            · intro hmem
              have : seen.contains (key z) = true := List.elem_iff.mpr hmem
              rw [hc] at this
              cases this
            · intro hmem
              exact ihseen z hz (List.mem_cons_of_mem _ hmem)

/-- Lemma: `deduplicateAndScore` yields pairwise-distinct domains in non-increasing
relevance order. -/
theorem deduplicateAndScore_spec (l : List Competitor) :
    ((deduplicateAndScore l).map (fun c => c.domain)).Nodup ∧
    (deduplicateAndScore l).Pairwise byScoreDesc := by
  constructor
  · have hperm : List.Perm (List.insertionSort byScoreDesc (dedupByKey (fun c => c.domain) [] l))
        (dedupByKey (fun c => c.domain) [] l) := List.perm_insertionSort _ _
    exact ((List.Perm.map (fun c => c.domain) hperm).nodup_iff).mpr
      (dedupByKey_spec (fun c => c.domain) [] l).1
  · exact List.sorted_insertionSort byScoreDesc _

/-- C10: every successful `discover_competitors` result has at most 20
competitors and at most 50 sources, pairwise-distinct competitor domains,
pairwise-distinct source URLs, and competitors in non-increasing
`relevanceScore` order. -/
theorem C10_discovery_result_bounds (industry : Option String)
    (keywords : Option (List String)) (raw : List Competitor)
    (rawSources : List DiscoverySource) (res : CompetitorDiscoveryResult)
    (h : (discoverCompetitors industry keywords raw rawSources).data = some res) :
    res.competitors.length ≤ 20 ∧
    res.sources.length ≤ 50 ∧
    (res.competitors.map (fun c => c.domain)).Nodup ∧
    (res.sources.map (fun s => s.url)).Nodup ∧
    res.competitors.Pairwise (fun a b => b.relevanceScore ≤ a.relevanceScore) := by
  rw [discoverCompetitors] at h
  cases hg : (industry.isNone && keywords.isNone) with
  | true =>
      rw [hg] at h
      simp only [if_pos] at h
      cases h
  | false =>
      rw [hg] at h
      simp only [Bool.false_eq_true, if_false] at h
      have hres : ({ competitors := (deduplicateAndScore raw).take 20
                     sources := (deduplicateSources rawSources).take 50 } :
          CompetitorDiscoveryResult) = res := Option.some.inj h
      subst hres
      obtain ⟨hnodup, hsorted⟩ := deduplicateAndScore_spec raw
      refine ⟨?_, ?_, ?_, ?_, ?_⟩
      · show ((deduplicateAndScore raw).take 20).length ≤ 20
        rw [List.length_take]
        exact min_le_left _ _
      · show ((deduplicateSources rawSources).take 50).length ≤ 50
        rw [List.length_take]
        exact min_le_left _ _
      · show (((deduplicateAndScore raw).take 20).map (fun c => c.domain)).Nodup
        exact List.Nodup.sublist (List.Sublist.map _ (List.take_sublist _ _)) hnodup
      · show (((deduplicateSources rawSources).take 50).map (fun s => s.url)).Nodup
        exact List.Nodup.sublist (List.Sublist.map _ (List.take_sublist _ _))
          (dedupByKey_spec (fun s => s.url) [] rawSources).1
      · show ((deduplicateAndScore raw).take 20).Pairwise
          (fun a b => b.relevanceScore ≤ a.relevanceScore)
        exact List.Pairwise.sublist (List.take_sublist _ _) hsorted

/-- C10 witness: a concrete run with one duplicate domain and one duplicate
source URL. -/
theorem C10_discovery_result_bounds_witness :
    sampleDiscoveryResult.competitors.length ≤ 20 ∧
    sampleDiscoveryResult.sources.length ≤ 50 ∧
    (sampleDiscoveryResult.competitors.map (fun c => c.domain)).Nodup ∧
    (sampleDiscoveryResult.sources.map (fun s => s.url)).Nodup ∧
    sampleDiscoveryResult.competitors.Pairwise
      (fun a b => b.relevanceScore ≤ a.relevanceScore) :=
  C10_discovery_result_bounds (some "saas") none sampleCompetitors sampleSources
    sampleDiscoveryResult (by decide)

/-- C2: the dashboard job flow creates the job `pending`, updates it to
`running` (progress 10) before the agent API call, then writes exactly one
final update: `completed` with progress 100 on a successful response, or
`failed` with progress 100 and a populated error on a failed one; and in
the written job states, `completed`/`failed` only ever appears after
`running`. -/
theorem C2_job_state_flow (defaultError : String) (apiSuccess : Bool)
    (apiData apiError : Option String) :
    dashboardJobFlow defaultError apiSuccess apiData apiError =
      [FlowEvent.dbCreate
         { status := JobStatus.pending, progress := 0, error := none, result := none },
       FlowEvent.dbUpdate
         { status := JobStatus.running, progress := 10, error := none, result := none },
       FlowEvent.apiCall,
       FlowEvent.dbUpdate
         { status := if apiSuccess then JobStatus.completed else JobStatus.failed
           progress := 100
           error := if apiSuccess then none else some (jsOrDefault apiError defaultError)
           result := if apiSuccess then apiData else none }] ∧
    startDiscoveryFlow apiSuccess apiData apiError =
      dashboardJobFlow "Discovery failed" apiSuccess apiData apiError ∧
    startCrawlingFlow apiSuccess apiData apiError =
      dashboardJobFlow "Crawling failed" apiSuccess apiData apiError ∧
    (flowJobStates (dashboardJobFlow defaultError apiSuccess apiData apiError)).map
        JobRec.status =
      [JobStatus.pending, JobStatus.running,
        if apiSuccess then JobStatus.completed else JobStatus.failed] ∧
    (∀ (i : Nat) (s : JobStatus),
      (((flowJobStates (dashboardJobFlow defaultError apiSuccess apiData apiError)).map
          JobRec.status).drop i).head? = some s →
      s = JobStatus.completed ∨ s = JobStatus.failed →
      JobStatus.running ∈
        ((flowJobStates (dashboardJobFlow defaultError apiSuccess apiData apiError)).map
          JobRec.status).take i) := by
  have hflow : dashboardJobFlow defaultError apiSuccess apiData apiError =
      [FlowEvent.dbCreate
         { status := JobStatus.pending, progress := 0, error := none, result := none },
       FlowEvent.dbUpdate
         { status := JobStatus.running, progress := 10, error := none, result := none },
       FlowEvent.apiCall,
       FlowEvent.dbUpdate
         { status := if apiSuccess then JobStatus.completed else JobStatus.failed
           progress := 100
           error := if apiSuccess then none else some (jsOrDefault apiError defaultError)
           result := if apiSuccess then apiData else none }] := by
    cases apiSuccess <;> rfl
  have hstat : (flowJobStates (dashboardJobFlow defaultError apiSuccess apiData apiError)).map
      JobRec.status =
      [JobStatus.pending, JobStatus.running,
        if apiSuccess then JobStatus.completed else JobStatus.failed] := by
    rw [hflow]
    cases apiSuccess <;> rfl
  refine ⟨hflow, rfl, rfl, hstat, ?_⟩
  intro i s h1 h2
  rw [hstat] at h1 ⊢
  match i with
  | 0 =>
      simp only [List.drop_zero, List.head?_cons, Option.some.injEq] at h1
      subst h1
      rcases h2 with h2 | h2 <;> cases h2
  | 1 =>
      simp only [List.drop_succ_cons, List.drop_zero, List.head?_cons,
        Option.some.injEq] at h1
      subst h1
      rcases h2 with h2 | h2 <;> cases h2
  | 2 =>
      show JobStatus.running ∈ [JobStatus.pending, JobStatus.running]
      exact List.mem_cons_of_mem _ (List.mem_cons_self _ _)
  | (n + 3) =>
      simp only [List.drop_succ_cons, List.drop_nil, List.head?_nil] at h1
      cases h1

/-- C2 witness: a failing API response with a falsy `error` field yields
`pending → running → failed` with the default error message, and the failed
state is preceded by a running state. -/
theorem C2_job_state_flow_witness :
    (dashboardJobFlow "Discovery failed" false none (some "") =
      [FlowEvent.dbCreate
         { status := JobStatus.pending, progress := 0, error := none, result := none },
       FlowEvent.dbUpdate
         { status := JobStatus.running, progress := 10, error := none, result := none },
       FlowEvent.apiCall,
       FlowEvent.dbUpdate
         { status := JobStatus.failed, progress := 100,
           error := some "Discovery failed", result := none }]) ∧
    JobStatus.running ∈
      ((flowJobStates (dashboardJobFlow "Discovery failed" false none (some ""))).map
        JobRec.status).take 2 :=
  ⟨(C2_job_state_flow "Discovery failed" false none (some "")).1,
   (C2_job_state_flow "Discovery failed" false none (some "")).2.2.2.2 2 JobStatus.failed
     (by decide) (Or.inr rfl)⟩

/-- A string that trims to empty is all whitespace. -/
theorem jsTrimChars_eq_nil (cs : List Char) (h : jsTrimChars cs = []) :
    ∀ c ∈ cs, c.isWhitespace := by
  rw [jsTrimChars, List.reverse_eq_nil_iff] at h
  have h2 : ∀ c ∈ (cs.dropWhile Char.isWhitespace).reverse, c.isWhitespace = true :=
    List.dropWhile_eq_nil_iff.mp h
  have h3 : ∀ c ∈ cs.dropWhile Char.isWhitespace, c.isWhitespace = true := by
    intro c hc
    exact h2 c (List.mem_reverse.mpr hc)
  intro c hc
  rw [← List.takeWhile_append_dropWhile (p := Char.isWhitespace) (l := cs)] at hc
  rcases List.mem_append.mp hc with hc | hc
  · exact List.mem_takeWhile_imp hc
  · exact h3 c hc

/-- Lemma: `toLowerCase` fixes whitespace characters. -/
theorem toLower_whitespace (c : Char) (h : c.isWhitespace) : c.toLower = c := by
  have h4 : c = ' ' ∨ c = '\t' ∨ c = '\r' ∨ c = '\n' := by
    simpa [Char.isWhitespace, or_assoc] using h
  rcases h4 with rfl | rfl | rfl | rfl <;> decide

/-- An all-whitespace string starts with neither `http://` nor `https://`. -/
theorem startsWith_http_whitespace (cs : List Char) (h : ∀ c ∈ cs, c.isWhitespace) :
    startsWithChars cs "http://".data = false ∧
    startsWithChars cs "https://".data = false := by
  cases cs with
  | nil => exact ⟨rfl, rfl⟩
  | cons c cs' =>
      have hc := h c (List.mem_cons_self _ _)
      have hcne : c ≠ 'h' := by
        intro he
        subst he
        exact absurd hc (by decide)
      have hne : (c == 'h') = false := beq_eq_false_iff_ne.mpr hcne
      constructor
      · show (c == 'h' && startsWithChars cs' ['t', 't', 'p', ':', '/', '/']) = false
        rw [hne, Bool.false_and]
      · show (c == 'h' && startsWithChars cs' ['t', 't', 'p', 's', ':', '/', '/']) = false
        rw [hne, Bool.false_and]

/-- Splitting a dot-free string yields a single component. -/
theorem splitOnDot_no_dot (cs : List Char) (h : ∀ c ∈ cs, c ≠ '.') :
    splitOnDot cs = [cs] := by
  induction cs with
  | nil => rfl
  | cons c cs' ih =>
      have hc : (c == '.') = false := beq_eq_false_iff_ne.mpr (h c (List.mem_cons_self _ _))
      rw [splitOnDot, hc]
      simp only [Bool.false_eq_true, if_false]
      rw [ih (fun x hx => h x (List.mem_cons_of_mem _ hx))]

/-- The validator regex rejects all-whitespace input (it has no dot). -/
theorem domainRegexTest_whitespace (cs : List Char) (h : ∀ c ∈ cs, c.isWhitespace) :
    domainRegexTest cs = false := by
  have hnodot : ∀ c ∈ cs, c ≠ '.' := by
    intro c hc he
    subst he
    exact absurd (h _ hc) (by decide)
  rw [domainRegexTest, splitOnDot_no_dot cs hnodot]
  rfl

/-- Characters survive the trailing-slash strip only if they were present. -/
theorem mem_stripTrailingSlash (cs : List Char) (c : Char)
    (h : c ∈ stripTrailingSlash cs) : c ∈ cs := by
  rw [stripTrailingSlash] at h
  split at h
  · exact (List.dropLast_sublist (l := cs)).subset h
  · exact h

/-- The cleaning pipeline of `validateDomain` preserves all-whitespace. -/
theorem cleanForValidation_whitespace (domain : String)
    (h : ∀ c ∈ domain.data, c.isWhitespace) :
    ∀ c ∈ cleanForValidation domain, c.isWhitespace := by
  have h1 : ∀ c ∈ toLowerChars domain.data, c.isWhitespace := by
    intro c hc
    obtain ⟨c', hc', rfl⟩ := List.mem_map.mp hc
    rw [toLower_whitespace c' (h c' hc')]
    exact h c' hc'
  have h2 : stripProtocol (toLowerChars domain.data) = toLowerChars domain.data := by
    obtain ⟨hh, hs⟩ := startsWith_http_whitespace _ h1
    rw [stripProtocol, hh, hs]
    simp
  rw [cleanForValidation, h2]
  intro c hc
  exact h1 c (mem_stripTrailingSlash _ c hc)

/-- C6: the add-domain form accepts an input (for a non-blank competitor
name) exactly when its lowercased, protocol- and trailing-slash-stripped
form matches the dotted-label domain regex; an accepted domain whose
cleaned form lacks a scheme is persisted with `https://` prepended, so
`example.com` is stored as `https://example.com`. -/
theorem C6_domain_form_validation (domain name : String) (hname : jsTrim name ≠ "") :
    (addDomainFormAccepts domain name = true ↔
      domainRegexTest (cleanForValidation domain) = true) ∧
    (∀ d : String,
      startsWithChars (stripTrailingSlash (toLowerChars d.data)) "http://".data = false →
      startsWithChars (stripTrailingSlash (toLowerChars d.data)) "https://".data = false →
      toStoredUrl d = "https://" ++ (⟨stripTrailingSlash (toLowerChars d.data)⟩ : String)) ∧
    toStoredUrl "example.com" = "https://example.com" := by
  have hnb : (jsTrim name == "") = false := beq_eq_false_iff_ne.mpr hname
  refine ⟨⟨?_, ?_⟩, ?_, by decide⟩
  · intro h
    rw [addDomainFormAccepts] at h
    simp only [Bool.and_eq_true] at h
    exact h.1.2
  · intro hreg
    have hdom : jsTrim domain ≠ "" := by
      intro he
      have hnil : jsTrimChars domain.data = [] := congrArg String.data he
      have hws := jsTrimChars_eq_nil _ hnil
      have hfalse := domainRegexTest_whitespace _ (cleanForValidation_whitespace domain hws)
      rw [hreg] at hfalse
      cases hfalse
    show ((!(jsTrim domain == "") && domainRegexTest (cleanForValidation domain)) &&
      !(jsTrim name == "")) = true
    rw [hreg, beq_eq_false_iff_ne.mpr hdom, hnb]
    rfl
  · intro d h1 h2
    rw [toStoredUrl]
    simp only [h1, h2, Bool.or_self, Bool.false_eq_true, if_false]

/-- C6 witness: `example.com` with a non-blank name is accepted and stored
with the `https://` scheme. -/
theorem C6_domain_form_validation_witness :
    (addDomainFormAccepts "example.com" "Acme Inc" = true ↔
      domainRegexTest (cleanForValidation "example.com") = true) ∧
    (∀ d : String,
      startsWithChars (stripTrailingSlash (toLowerChars d.data)) "http://".data = false →
      startsWithChars (stripTrailingSlash (toLowerChars d.data)) "https://".data = false →
      toStoredUrl d = "https://" ++ (⟨stripTrailingSlash (toLowerChars d.data)⟩ : String)) ∧
    toStoredUrl "example.com" = "https://example.com" :=
  C6_domain_form_validation "example.com" "Acme Inc" (by decide)

end Spyce
